import Mathlib

/-!
Verification of the video-calling signaling relay.

The repository has two transport bindings for one coordination protocol:

* Polling binding: a browser client (`script.js`) that polls two
  serverless endpoints (`api/sendSignal.js`, `api/getSignals.js`) backed
  by a per-room durable list in a key-value store.
* Live-channel binding: a Socket.IO server (`server.js`) and its browser
  client (`public/script.js`).

The definitions below are a shallow embedding of the coordination logic of
those files: the pure data transformations are Lean functions, the stateful
parts are explicit state-passing step functions.
-/

namespace VideoCall

/-- Opaque signaling payload (an SDP description or ICE candidate structure).
The relay never interprets it, so we model it as a string. -/
abbrev Payload := String

/-- Wire envelope of the polling binding
(`{ fromPeer, type, data, timestamp }`, built in `api/sendSignal.js` and
consumed by `handleIncomingSignals` in `script.js`).  `data` is `none` for
the JS `null` (as in a `join` signal). -/
structure Envelope where
  fromPeer : String
  type : String
  data : Option Payload
  timestamp : Nat
deriving DecidableEq

/-- One entry of the per-room KV list.  Entries are JSON strings; an entry
either parses back to an `Envelope` (`json e`, the result of
`JSON.stringify` on a pushed envelope) or fails `JSON.parse` (`invalid s`). -/
inductive RawEntry where
  | json (e : Envelope)
  | invalid (s : String)
deriving DecidableEq

/-- `JSON.parse` composed with the `null` filter of `api/getSignals.js`:
a parseable entry yields its envelope, an unparseable one yields `none`. -/
def parseEntry : RawEntry → Option Envelope
  | .json e => some e
  | .invalid _ => none

/-- The Vercel KV store as seen by the two endpoints: each key holds a list,
head = most recently pushed (`lpush` prepends). -/
abbrev Store := String → List RawEntry

def Store.empty : Store := fun _ => []

/-- `kv.lpush key v`: prepend `v` to the list at `key`. -/
def Store.lpush (st : Store) (key : String) (v : RawEntry) : Store :=
  fun k => if k = key then v :: st k else st k

/-- `kv.del key`: remove the list at `key`. -/
def Store.del (st : Store) (key : String) : Store :=
  fun k => if k = key then [] else st k

/-- Responses of the two serverless endpoints, as far as clients observe
them: HTTP 405, HTTP 400 with an error message, HTTP 200 with a signals
array (`getSignals`), or HTTP 200 `{ok: true}` (`sendSignal`). -/
inductive ApiResp where
  | methodNotAllowed (msg : String)
  | badRequest (msg : String)
  | okSignals (signals : List Envelope)
  | okTrue
deriving DecidableEq

/-- Request body of `POST /api/sendSignal`; a field is `none` when absent
(JS `undefined`).  `data` is doubly optional: the outer `none` is an absent
field, `some none` is an explicit JSON `null`. -/
structure SendBody where
  roomId : Option String
  fromPeer : Option String
  type : Option String
  data : Option (Option Payload)
deriving DecidableEq

def missingFieldMsg : String :=
  "Missing one of \x7broomId, fromPeer, type, data\x7d"

/-- `api/sendSignal.js` handler.  The JS guard
`!roomId || !fromPeer || !type || data === undefined` throws (caught as a
400 response) when a string field is absent or empty — both are falsy — or
when `data` is absent; `data: null` passes.  Otherwise it pushes
`JSON.stringify({fromPeer, type, data, timestamp: Date.now()})` onto the
room's list. -/
def sendSignalHandler (method : String) (body : SendBody) (now : Nat)
    (st : Store) : ApiResp × Store :=
  if method ≠ "POST" then (.methodNotAllowed "Only POST is allowed", st)
  else
    match body.roomId, body.fromPeer, body.type, body.data with
    | some r, some f, some t, some d =>
      if r = "" ∨ f = "" ∨ t = "" then (.badRequest missingFieldMsg, st)
      else (.okTrue, st.lpush ("signals:" ++ r) (.json ⟨f, t, d, now⟩))
    | _, _, _, _ => (.badRequest missingFieldMsg, st)

/-- `api/getSignals.js` handler.  Reads the whole list for the room
(`lrange key 0 -1`), maps `JSON.parse` over it discarding entries that do
not parse, deletes the key, and returns the parsed envelopes.  An absent or
empty `roomId` query parameter is falsy and yields a 400. -/
def getSignalsHandler (method : String) (roomId : Option String)
    (st : Store) : ApiResp × Store :=
  if method ≠ "GET" then (.methodNotAllowed "Only GET is allowed", st)
  else
    match roomId with
    | none => (.badRequest "Missing roomId", st)
    | some r =>
      if r = "" then (.badRequest "Missing roomId", st)
      else
        let key := "signals:" ++ r
        let rawList := st key
        if rawList = [] then (.okSignals [], st)
        else (.okSignals (rawList.filterMap parseEntry), st.del key)

/-! ### Polling-binding client (`script.js`) -/

/-- Mutable client state of the polling client relevant to signaling:
`clientId`, the `peersInRoom` set and the `hasSentOffer` latch.  A JS `Set`
iterates in insertion order without duplicates, so it is modelled as a
duplicate-free list in insertion order. -/
structure PollState where
  clientId : String
  peersInRoom : List String
  hasSentOffer : Bool
deriving DecidableEq

/-- `peersInRoom.add(fromPeer)`: JS `Set.add` is a no-op on a member and
otherwise appends. -/
def setAdd (l : List String) (x : String) : List String :=
  if x ∈ l then l else l ++ [x]

/-- Outbound messages the polling client produces while handling a batch of
envelopes: `offerTo t` records `createAndSendOffer(t)` (a `sendSignal` with
`type: "offer"`), `answerSig` records the `sendSignal` with
`type: "answer"` from the offer-handling branch. -/
inductive PollEmit where
  | offerTo (target : String)
  | answerSig
deriving DecidableEq

/-- Freshly joined polling client: empty peer set, latch down
(`script.js` globals). -/
def initPoll (cid : String) : PollState := ⟨cid, [], false⟩

/-- A `join` envelope as pushed by `initializeMediaAndConnection`
(`data: null`). -/
def joinEnv (fromPeer : String) : Envelope := ⟨fromPeer, "join", none, 0⟩

/-- Body of the `for` loop of `handleIncomingSignals` in `script.js` for a
single envelope.  Envelopes from ourselves are skipped.  The JS tests
`type` with successive `if`s, but a single `type` value matches at most one
of them, so an `if`/`else if` chain is equivalent.  On `join`: add the
sender to `peersInRoom`; if the latch is down and the set now has exactly
one member, compare ids and, when ours is lexicographically smaller, send
the offer and raise the latch.  On `offer`: answer and raise the latch.
`answer` and `ice-candidate` only touch the RTCPeerConnection (external).
The JS comparison `clientId < otherPeerId` is lexicographic; it is written
here on the character lists, which is equivalent to Lean's `String` order
by `String.lt_iff_toList_lt` and lets concrete runs evaluate. -/
def processEnvelope (st : PollState) (env : Envelope) :
    PollState × List PollEmit :=
  if env.fromPeer = st.clientId then (st, [])
  else if env.type = "join" then
    let peers2 := setAdd st.peersInRoom env.fromPeer
    if st.hasSentOffer = false ∧ peers2.length = 1 then
      if st.clientId.toList < (peers2.headD "").toList then
        ({ st with peersInRoom := peers2, hasSentOffer := true },
         [PollEmit.offerTo (peers2.headD "")])
      else ({ st with peersInRoom := peers2 }, [])
    else ({ st with peersInRoom := peers2 }, [])
  else if env.type = "offer" then
    ({ st with hasSentOffer := true }, [PollEmit.answerSig])
  else (st, [])

/-- The loop of `handleIncomingSignals` after the initial
`envelopes.reverse()`: process the reversed list front to back, threading
the state and concatenating the emissions. -/
def runEnvs (st : PollState) : List Envelope → PollState × List PollEmit
  | [] => (st, [])
  | e :: rest =>
    let p1 := processEnvelope st e
    let p2 := runEnvs p1.1 rest
    (p2.1, p1.2 ++ p2.2)

/-- `handleIncomingSignals(envelopes)`: reverse, then process each. -/
def handleIncomingSignals (st : PollState) (envelopes : List Envelope) :
    PollState × List PollEmit :=
  runEnvs st envelopes.reverse

/-- Number of offers among a batch of emissions. -/
def countOffers (l : List PollEmit) : Nat :=
  (l.filter fun e => match e with | .offerTo _ => true | .answerSig => false).length

/-! ### Live-channel binding (`server.js` and `public/script.js`) -/

/-- Server-to-client Socket.IO events emitted by `server.js`. -/
inductive SMsg where
  | newParticipant (peerId : String)
  | offerMsg (callerId : String) (offer : Payload)
  | answerMsg (responderId : String) (answer : Payload)
  | iceMsg (fromId : String) (candidate : Payload)
  | peerDisconnected (peerId : String)
deriving DecidableEq

/-- Client-to-server Socket.IO events as handled by `server.js`. -/
inductive CMsg where
  | joinRoom (roomId : String)
  | offerEv (targetId : String) (offer : Payload)
  | answerEv (targetId : String) (answer : Payload)
  | iceEv (targetId : String) (candidate : Payload)
  | disconnectEv
deriving DecidableEq

/-- Socket.IO server state: the connected socket ids, the room membership
pairs `(roomId, socketId)` held by the adapter (duplicate-free:
`socket.join` on a room the socket is already in is a no-op), and `regs`,
one `(socketId, roomId)` pair per *execution* of the `join-room` handler —
each execution registers one fresh set of `offer`/`answer`/`ice-candidate`/
`disconnect` listeners on that socket, closing over that `roomId`. -/
structure ServerState where
  connected : List String
  rooms : List (String × String)
  regs : List (String × String)
deriving DecidableEq

def serverInit : ServerState := ⟨[], [], []⟩

/-- A new Socket.IO connection. -/
def connectSocket (s : ServerState) (x : String) : ServerState :=
  { s with connected := if x ∈ s.connected then s.connected else s.connected ++ [x] }

/-- Sockets currently in room `r`. -/
def roomMembers (s : ServerState) (r : String) : List String :=
  (s.rooms.filter fun p => p.1 == r).map fun p => p.2

/-- Recipients of `socket.to(r).emit(...)` sent by `x`: every socket in
room `r` except the sender. -/
def socketToRecipients (s : ServerState) (r x : String) : List String :=
  (roomMembers s r).filter fun m => m != x

/-- Recipients of `io.to(t).emit(...)`: every socket in room `t`.  Socket.IO
puts each connected socket in a room named by its own id, so a connected
`t` receives messages addressed to it; the sender is *not* excluded. -/
def ioToRecipients (s : ServerState) (t : String) : List String :=
  if t ∈ s.connected ∧ t ∉ roomMembers s t
  then roomMembers s t ++ [t] else roomMembers s t

/-- One event handled by `server.js` for socket `sender`; returns the new
server state and the list of `(recipient, event)` deliveries.

`join-room`: join the room (adapter no-op if already a member), announce
`new-participant` to the other members, and register one more set of relay
listeners (`regs`).  The relay events fire once per registered listener:
`offer {targetId, offer}` → `io.to(targetId).emit("offer",
{callerId: sender, offer})`, and analogously for `answer` and
`ice-candidate`.  `disconnect` fires each registered disconnect listener,
emitting `peer-disconnected(sender)` to the other members of the `roomId`
that listener closed over, then Socket.IO forgets the socket. -/
def serverStep (s : ServerState) (sender : String) (msg : CMsg) :
    ServerState × List (String × SMsg) :=
  match msg with
  | .joinRoom r =>
    let s1 := { s with
      rooms := if (r, sender) ∈ s.rooms then s.rooms else s.rooms ++ [(r, sender)] }
    (⟨s1.connected, s1.rooms, s1.regs ++ [(sender, r)]⟩,
     (socketToRecipients s1 r sender).map fun m => (m, SMsg.newParticipant sender))
  | .offerEv t o =>
    (s, (s.regs.filter fun p => p.1 == sender).flatMap fun _ =>
      (ioToRecipients s t).map fun m => (m, SMsg.offerMsg sender o))
  | .answerEv t a =>
    (s, (s.regs.filter fun p => p.1 == sender).flatMap fun _ =>
      (ioToRecipients s t).map fun m => (m, SMsg.answerMsg sender a))
  | .iceEv t c =>
    (s, (s.regs.filter fun p => p.1 == sender).flatMap fun _ =>
      (ioToRecipients s t).map fun m => (m, SMsg.iceMsg sender c))
  | .disconnectEv =>
    (⟨s.connected.filter fun c => c != sender,
      s.rooms.filter fun p => p.2 != sender,
      s.regs.filter fun p => p.1 != sender⟩,
     (s.regs.filter fun p => p.1 == sender).flatMap fun p =>
       (socketToRecipients s p.2 sender).map fun m => (m, SMsg.peerDisconnected sender))

/-- Live-channel client state (`public/script.js`): the remembered remote
peer id, whether the `RTCPeerConnection` object is still open, and the
status line text (emoji stripped). -/
structure LiveClientState where
  otherPeerId : Option String
  peerConnOpen : Bool
  statusText : String
deriving DecidableEq

/-- Emissions of the live-channel client: `socket.emit("offer", {targetId,
offer})` from `createAndSendOffer`, and `socket.emit("answer", {targetId,
answer})` from the offer handler. -/
inductive LiveEmit where
  | offerEmit (targetId : String)
  | answerEmit (targetId : String)
deriving DecidableEq

/-- Client state right after `initMediaAndConnection` succeeded and
`join-room` was emitted: `otherPeerId = null`, connection object created,
status "Connecting...". -/
def liveClientInit : LiveClientState := ⟨none, true, "Connecting..."⟩

/-- The live-channel client's socket event handlers.  `new-participant`:
if `otherPeerId` is unset, remember the newcomer and send the offer —
no id comparison is made.  `offer`: remember the caller and answer.
`answer`/`ice-candidate`: only touch the `RTCPeerConnection` (external).
`peer-disconnected`: if it names the remembered peer, show "Peer Left",
close the connection object and clear `otherPeerId`. -/
def liveClientStep (c : LiveClientState) (m : SMsg) :
    LiveClientState × List LiveEmit :=
  match m with
  | .newParticipant sid =>
    match c.otherPeerId with
    | none => ({ c with otherPeerId := some sid }, [LiveEmit.offerEmit sid])
    | some _ => (c, [])
  | .offerMsg callerId _ =>
    ({ c with otherPeerId := some callerId }, [LiveEmit.answerEmit callerId])
  | .answerMsg _ _ => (c, [])
  | .iceMsg _ _ => (c, [])
  | .peerDisconnected sid =>
    if c.otherPeerId = some sid then
      (⟨none, false, "Peer Left"⟩, [])
    else (c, [])

/-- The two-join trace of the live-channel binding: sockets `A` then `B`
connect, `A` emits `join-room r`, then `B` does; the result is the
concatenated list of server deliveries. -/
def liveTwoJoin (A B r : String) : List (String × SMsg) :=
  let s0 := connectSocket (connectSocket serverInit A) B
  let j1 := serverStep s0 A (CMsg.joinRoom r)
  let j2 := serverStep j1.1 B (CMsg.joinRoom r)
  j1.2 ++ j2.2

/-! ### Helper lemmas -/

/-- How many more offers the polling client may still send: one while the
latch is down, none once it is up. -/
def offerBudget (st : PollState) : Nat := if st.hasSentOffer then 0 else 1

lemma countOffers_append (l1 l2 : List PollEmit) :
    countOffers (l1 ++ l2) = countOffers l1 + countOffers l2 := by
  simp [countOffers, List.filter_append]

/-- Each envelope consumes offers from the budget: a step emits at most the
budget, and whatever it emits is deducted from the remaining budget. -/
lemma processEnvelope_budget (st : PollState) (e : Envelope) :
    countOffers (processEnvelope st e).2 + offerBudget (processEnvelope st e).1
      ≤ offerBudget st := by
  unfold processEnvelope
  by_cases h1 : e.fromPeer = st.clientId
  · simp [h1, countOffers]
  by_cases h2 : e.type = "join"
  · by_cases h3 : st.hasSentOffer = false
      ∧ (setAdd st.peersInRoom e.fromPeer).length = 1
    · by_cases h4 :
        st.clientId.data < ((setAdd st.peersInRoom e.fromPeer).head?.getD "").data
      · simp [h1, h2, h3, h4, countOffers, offerBudget, h3.1]
      · simp [h1, h2, h3, h4, countOffers, offerBudget, h3.1]
    · simp [h1, h2, h3, countOffers, offerBudget]
  by_cases h5 : e.type = "offer"
  · simp [h1, h2, h5, countOffers, offerBudget]
  · simp [h1, h2, h5, countOffers, offerBudget]

lemma runEnvs_budget (envs : List Envelope) (st : PollState) :
    countOffers (runEnvs st envs).2 + offerBudget (runEnvs st envs).1
      ≤ offerBudget st := by
  induction envs generalizing st with
  | nil => simp [runEnvs, countOffers]
  | cons e rest ih =>
    have h1 := processEnvelope_budget st e
    have h2 := ih (processEnvelope st e).1
    simp only [runEnvs, countOffers_append]
    omega

lemma offerBudget_le_one (st : PollState) : offerBudget st ≤ 1 := by
  unfold offerBudget; split <;> omega

/-! ### Claims -/

/-- Claim C2: repeated delivery of the same join notification never causes a
peer to send more than one offer.  (i) Any batch handled by the polling
client's `handleIncomingSignals` produces at most one offer, from any
starting state; (ii) once `hasSentOffer` is set, no envelope — in
particular no repeated `join` — produces an offer; (iii) any step that
does produce an offer leaves `hasSentOffer` set, so by (ii) every later
join notification produces no offer; (iv) in the live-channel client, once
`otherPeerId` is non-null a `new-participant` event produces nothing. -/
theorem at_most_one_offer :
    (∀ (st : PollState) (envs : List Envelope),
        countOffers (handleIncomingSignals st envs).2 ≤ 1)
  ∧ (∀ (st : PollState) (e : Envelope), st.hasSentOffer = true →
        countOffers (processEnvelope st e).2 = 0)
  ∧ (∀ (st : PollState) (e : Envelope), 1 ≤ countOffers (processEnvelope st e).2 →
        (processEnvelope st e).1.hasSentOffer = true)
  ∧ (∀ (c : LiveClientState) (sid : String), c.otherPeerId ≠ none →
        (liveClientStep c (SMsg.newParticipant sid)).2 = []) := by
  refine ⟨?_, ?_, ?_, ?_⟩
  · intro st envs
    have h := runEnvs_budget envs.reverse st
    have hb := offerBudget_le_one st
    unfold handleIncomingSignals
    omega
  · intro st e h
    have hbe := processEnvelope_budget st e
    simp only [offerBudget, h, if_true] at hbe
    omega
  · intro st e h
    have hbe := processEnvelope_budget st e
    have hb := offerBudget_le_one st
    by_cases hlatch : (processEnvelope st e).1.hasSentOffer = true
    · exact hlatch
    · have hone : offerBudget (processEnvelope st e).1 = 1 := by
        unfold offerBudget
        rw [if_neg hlatch]
      omega
  · intro c sid h
    cases hc : c.otherPeerId with
    | none => exact absurd hc h
    | some y => simp [liveClientStep, hc]

-- Witness for `at_most_one_offer`: a polling client that has already sent
-- its offer ignores a duplicate join, and a live client with a remembered
-- peer ignores a duplicate new-participant.
theorem at_most_one_offer_witness :
    countOffers (processEnvelope ⟨"bb", ["aa"], true⟩ (joinEnv "aa")).2 = 0
  ∧ (processEnvelope (initPoll "aa") (joinEnv "bb")).1.hasSentOffer = true
  ∧ (liveClientStep ⟨some "pp", true, "s"⟩ (SMsg.newParticipant "pp")).2 = [] :=
  ⟨at_most_one_offer.2.1 ⟨"bb", ["aa"], true⟩ (joinEnv "aa") rfl,
   at_most_one_offer.2.2.1 (initPoll "aa") (joinEnv "bb") (by decide),
   at_most_one_offer.2.2.2 ⟨some "pp", true, "s"⟩ "pp" (by decide)⟩

/-- Claim C9: the polling client's offerer election is evaluated only when
the set of other known peers has size exactly 1; a join notification that
brings the set to any other size produces no offer. -/
theorem election_requires_single_peer (st : PollState) (env : Envelope)
    (htype : env.type = "join")
    (hsize : (setAdd st.peersInRoom env.fromPeer).length ≠ 1) :
    countOffers (processEnvelope st env).2 = 0 := by
  unfold processEnvelope
  rw [htype]
  by_cases h1 : env.fromPeer = st.clientId
  · simp [h1, countOffers]
  · have h3 : ¬ (st.hasSentOffer = false
        ∧ (setAdd st.peersInRoom env.fromPeer).length = 1) :=
      fun hand => hsize hand.2
    simp [h1, h3, countOffers]

-- Witness for `election_requires_single_peer`: a third joiner brings the
-- set to size 2, so no offer is produced.
theorem election_requires_single_peer_witness :
    (setAdd ["bb"] "zz").length ≠ 1
  ∧ countOffers (processEnvelope ⟨"aa", ["bb"], false⟩ ⟨"zz", "join", none, 7⟩).2 = 0 :=
  ⟨by decide,
   election_requires_single_peer ⟨"aa", ["bb"], false⟩ ⟨"zz", "join", none, 7⟩ rfl (by decide)⟩

/-- A fresh polling client handling the first join of the single other
peer: it sends the offer exactly when its own id is lexicographically
smaller. -/
lemma processEnvelope_join_fresh (A B : String) (hBA : B ≠ A) :
    (processEnvelope (initPoll A) (joinEnv B)).2
      = if A.toList < B.toList then [PollEmit.offerTo B] else [] := by
  unfold processEnvelope initPoll joinEnv setAdd
  by_cases h4 : A.data < B.data
  · simp [hBA, h4]
  · simp [hBA, h4]

/-- Claim C1 (amended): with peers `A ≠ B`, each binding elects exactly one
offerer, but they use different rules.  Polling: a fresh client processing
the other's join sends the offer iff its id is smaller, so exactly the
lexicographically smaller peer of the pair is elected.  Live-channel: when
`A` joins room `r` first and then `B` joins, the only server delivery is
`new-participant(B)` to `A`, and a fresh client receiving it sends the
offer — so the elected peer is the *first joiner*, whatever the
lexicographic order of the ids. -/
theorem offerer_election (A B r : String) (hAB : A ≠ B) :
    (countOffers (processEnvelope (initPoll A) (joinEnv B)).2 = 1 ↔ A < B)
  ∧ (countOffers (processEnvelope (initPoll B) (joinEnv A)).2 = 1 ↔ B < A)
  ∧ ((A < B ∨ B < A) ∧ ¬(A < B ∧ B < A))
  ∧ liveTwoJoin A B r = [(A, SMsg.newParticipant B)]
  ∧ (liveClientStep liveClientInit (SMsg.newParticipant B)).2
      = [LiveEmit.offerEmit B] := by
  have hBA : B ≠ A := hAB.symm
  refine ⟨?_, ?_, ?_, ?_, rfl⟩
  · rw [processEnvelope_join_fresh A B hBA, String.lt_iff_toList_lt]
    by_cases h : A.data < B.data
    · simp [h, countOffers, String.toList]
    · simp [h, countOffers, String.toList]
  · rw [processEnvelope_join_fresh B A hAB, String.lt_iff_toList_lt]
    by_cases h : B.data < A.data
    · simp [h, countOffers, String.toList]
    · simp [h, countOffers, String.toList]
  · refine ⟨?_, fun hand => absurd hand.1 (lt_asymm hand.2)⟩
    rcases lt_trichotomy A B with h | h | h
    · exact Or.inl h
    · exact absurd h hAB
    · exact Or.inr h
  · unfold liveTwoJoin connectSocket serverInit serverStep socketToRecipients
      roomMembers
    simp [hAB, hBA, Prod.ext_iff, List.filter]

-- Witness for `offerer_election`: with ids "aa" < "bb", the polling client
-- "aa" sends the offer and "bb" does not; in the live-channel binding the
-- first joiner "aa" is notified of "bb" and sends the offer.
theorem offerer_election_witness :
    countOffers (processEnvelope (initPoll "aa") (joinEnv "bb")).2 = 1
  ∧ liveTwoJoin "aa" "bb" "room1" = [("aa", SMsg.newParticipant "bb")] := by
  have h := offerer_election "aa" "bb" "room1" (by decide)
  exact ⟨h.1.mpr (String.lt_iff_toList_lt.mpr (by decide)), h.2.2.2.1⟩

-- Counterexample to claim C1 as stated: in the live-channel binding the
-- elected offerer is not the lexicographically smaller peer.  Socket "b"
-- joins room1 first, then socket "a": the only delivery is
-- new-participant("a") to "b", and "b" — receiving it with otherPeerId
-- still null — sends the offer, although "a" < "b" ("a" receives nothing,
-- so it sends nothing).
theorem offerer_election_counterexample :
    liveTwoJoin "b" "a" "room1" = [("b", SMsg.newParticipant "a")]
  ∧ (liveClientStep liveClientInit (SMsg.newParticipant "a")).2
      = [LiveEmit.offerEmit "a"]
  ∧ "a" < "b" :=
  ⟨by decide, by decide, String.lt_iff_toList_lt.mpr (by decide)⟩

/-- Drain behaviour of `api/getSignals.js` on a GET with a non-empty
`roomId`: the response carries the parseable entries of the room's queue
and afterwards the room's queue is empty. -/
lemma getSignals_drain_aux (st : Store) (r : String) (hr : r ≠ "") :
    (getSignalsHandler "GET" (some r) st).1
        = ApiResp.okSignals ((st ("signals:" ++ r)).filterMap parseEntry)
    ∧ ((getSignalsHandler "GET" (some r) st).2) ("signals:" ++ r) = [] := by
  unfold getSignalsHandler
  have h0 : ¬ (("GET" : String) ≠ "GET") := by simp
  rw [if_neg h0]
  dsimp only
  rw [if_neg hr]
  by_cases hq : st ("signals:" ++ r) = []
  · rw [if_pos hq]
    exact ⟨by rw [hq]; rfl, hq⟩
  · rw [if_neg hq]
    exact ⟨rfl, by simp [Store.del]⟩

/-- Claim C3: a drain returns every envelope queued for the room (all
parseable entries; every entry queued as a pushed envelope is among the
returned signals) and clears the queue, so an immediately following second
drain returns an empty signals array — no envelope from a single push is
delivered by two drains. -/
theorem drain_exhaustive_nonrepeating (st : Store) (r : String) (hr : r ≠ "") :
    (getSignalsHandler "GET" (some r) st).1
        = ApiResp.okSignals ((st ("signals:" ++ r)).filterMap parseEntry)
  ∧ (∀ e : Envelope, RawEntry.json e ∈ st ("signals:" ++ r) →
        e ∈ (st ("signals:" ++ r)).filterMap parseEntry)
  ∧ ((getSignalsHandler "GET" (some r) st).2) ("signals:" ++ r) = []
  ∧ (getSignalsHandler "GET" (some r)
        ((getSignalsHandler "GET" (some r) st).2)).1 = ApiResp.okSignals [] := by
  obtain ⟨h1, h2⟩ := getSignals_drain_aux st r hr
  refine ⟨h1, ?_, h2, ?_⟩
  · intro e he
    exact List.mem_filterMap.mpr ⟨RawEntry.json e, he, rfl⟩
  · obtain ⟨h3, _⟩ :=
      getSignals_drain_aux ((getSignalsHandler "GET" (some r) st).2) r hr
    rw [h3, h2]
    rfl

/-- A concrete store: room "ab" holds an unparseable entry (most recent)
and a pushed join envelope. -/
def storeW : Store :=
  (Store.empty.lpush "signals:ab" (RawEntry.json ⟨"p1", "join", none, 5⟩)).lpush
    "signals:ab" (RawEntry.invalid "oops")

-- Witness for `drain_exhaustive_nonrepeating`: after draining room "ab" of
-- `storeW`, a second immediate drain returns an empty signals array.
theorem drain_exhaustive_nonrepeating_witness :
    ("ab" : String) ≠ ""
  ∧ (getSignalsHandler "GET" (some "ab")
        ((getSignalsHandler "GET" (some "ab") storeW).2)).1 = ApiResp.okSignals [] :=
  ⟨by decide, (drain_exhaustive_nonrepeating storeW "ab" (by decide)).2.2.2⟩

/-- Claim C10: queue entries that are not valid JSON are silently
discarded by the drain endpoint: the response is a signals array (never an
error) holding exactly the queued entries that parse, in stored order, and
the whole queue — unparseable entries included — is removed. -/
theorem drain_discards_unparseable (st : Store) (r : String) (hr : r ≠ "") :
    (getSignalsHandler "GET" (some r) st).1
        = ApiResp.okSignals ((st ("signals:" ++ r)).filterMap parseEntry)
  ∧ ((getSignalsHandler "GET" (some r) st).2) ("signals:" ++ r) = []
  ∧ (∀ msg, (getSignalsHandler "GET" (some r) st).1 ≠ ApiResp.badRequest msg) := by
  obtain ⟨h1, h2⟩ := getSignals_drain_aux st r hr
  refine ⟨h1, h2, fun msg => ?_⟩
  rw [h1]
  exact fun hcontra => ApiResp.noConfusion hcontra

-- Witness for `drain_discards_unparseable`: draining `storeW` returns just
-- the parseable envelope; the unparseable entry is dropped silently.
theorem drain_discards_unparseable_witness :
    (getSignalsHandler "GET" (some "ab") storeW).1
      = ApiResp.okSignals [⟨"p1", "join", none, 5⟩] :=
  ((drain_discards_unparseable storeW "ab" (by decide)).1).trans (by decide)

/-- Claim C5: a POST to `/api/sendSignal` whose body is missing any of
`roomId`, `fromPeer`, `type` or `data` gets a synchronous 400 with an error
message, and the store — hence every room's queue — is returned unchanged
(no `lpush` happens). -/
theorem sendSignal_missing_field_rejected (body : SendBody) (now : Nat)
    (st : Store)
    (h : body.roomId = none ∨ body.fromPeer = none ∨ body.type = none
      ∨ body.data = none) :
    sendSignalHandler "POST" body now st = (ApiResp.badRequest missingFieldMsg, st) := by
  obtain ⟨r0, f0, t0, d0⟩ := body
  unfold sendSignalHandler
  have h0 : ¬ (("POST" : String) ≠ "POST") := by simp
  rw [if_neg h0]
  rcases r0 with _ | r0 <;> rcases f0 with _ | f0 <;> rcases t0 with _ | t0 <;>
    rcases d0 with _ | d0 <;> simp_all

-- Witness for `sendSignal_missing_field_rejected`: a body without `roomId`
-- is rejected and the empty store stays empty.
theorem sendSignal_missing_field_rejected_witness :
    sendSignalHandler "POST" ⟨none, some "p1", some "join", some none⟩ 3 Store.empty
      = (ApiResp.badRequest missingFieldMsg, Store.empty) :=
  sendSignal_missing_field_rejected ⟨none, some "p1", some "join", some none⟩ 3
    Store.empty (Or.inl rfl)

lemma mem_socketToRecipients {s : ServerState} {r x m : String}
    (h : m ∈ socketToRecipients s r x) : m ∈ roomMembers s r ∧ m ≠ x := by
  unfold socketToRecipients at h
  rw [List.mem_filter] at h
  exact ⟨h.1, by simpa using h.2⟩

lemma mem_socketToRecipients_of {s : ServerState} {r x m : String}
    (h1 : m ∈ roomMembers s r) (h2 : m ≠ x) : m ∈ socketToRecipients s r x := by
  unfold socketToRecipients
  rw [List.mem_filter]
  exact ⟨h1, by simpa using h2⟩

lemma not_mem_ioToRecipients {s : ServerState} {t x : String}
    (hxt : x ≠ t) (hxm : x ∉ roomMembers s t) : x ∉ ioToRecipients s t := by
  unfold ioToRecipients
  split
  · simp [hxm, hxt]
  · simpa using hxm

lemma mem_ioToRecipients_self {s : ServerState} {t : String}
    (ht : t ∈ s.connected) : t ∈ ioToRecipients s t := by
  by_cases hm : t ∈ roomMembers s t
  · unfold ioToRecipients
    split <;> simp [hm]
  · unfold ioToRecipients
    rw [if_pos ⟨ht, hm⟩]
    simp

/-- Claim C4 (amended): the polling consumer discards every envelope whose
`fromPeer` is its own id, and the live-channel broadcasts (`new-participant`
on join, `peer-disconnected` on disconnect) exclude the sending socket.  A
targeted relay, however, delivers to the sockets reached by `io.to(targetId)`
without excluding the sender: the sender never receives its own envelope
*provided* it is not itself the target and has not joined a room named by
the target id. -/
theorem no_self_delivery (st : PollState) (env : Envelope)
    (s : ServerState) (x r t : String) (o : Payload)
    (hfrom : env.fromPeer = st.clientId)
    (hxt : x ≠ t) (hxm : x ∉ roomMembers s t) :
    processEnvelope st env = (st, [])
  ∧ (∀ d ∈ (serverStep s x (CMsg.joinRoom r)).2, d.1 ≠ x)
  ∧ (∀ d ∈ (serverStep s x CMsg.disconnectEv).2, d.1 ≠ x)
  ∧ (∀ d ∈ (serverStep s x (CMsg.offerEv t o)).2, d.1 ≠ x)
  ∧ (∀ d ∈ (serverStep s x (CMsg.answerEv t o)).2, d.1 ≠ x)
  ∧ (∀ d ∈ (serverStep s x (CMsg.iceEv t o)).2, d.1 ≠ x) := by
  refine ⟨by simp [processEnvelope, hfrom], ?_, ?_, ?_, ?_, ?_⟩
  · intro d hd
    simp only [serverStep, List.mem_map] at hd
    obtain ⟨m, hm, rfl⟩ := hd
    exact (mem_socketToRecipients hm).2
  · intro d hd
    simp only [serverStep, List.mem_flatMap] at hd
    obtain ⟨p, _, hd⟩ := hd
    rw [List.mem_map] at hd
    obtain ⟨m, hm, rfl⟩ := hd
    exact (mem_socketToRecipients hm).2
  all_goals
    intro d hd
    simp only [serverStep, List.mem_flatMap] at hd
    obtain ⟨p, _, hd⟩ := hd
    rw [List.mem_map] at hd
    obtain ⟨m, hm, rfl⟩ := hd
    intro heq
    exact not_mem_ioToRecipients hxt hxm (heq ▸ hm)

-- Witness for `no_self_delivery`: socket "a" relays an offer to "b"; no
-- delivery goes back to "a", and the polling client ignores its own join.
theorem no_self_delivery_witness :
    (∀ d ∈ (serverStep ⟨["a", "b"], [("r", "b")], [("a", "r")]⟩ "a"
        (CMsg.offerEv "b" "sdp1")).2, d.1 ≠ "a")
  ∧ processEnvelope ⟨"a", [], false⟩ ⟨"a", "join", none, 0⟩ = (⟨"a", [], false⟩, []) := by
  have h := no_self_delivery ⟨"a", [], false⟩ ⟨"a", "join", none, 0⟩
    ⟨["a", "b"], [("r", "b")], [("a", "r")]⟩ "a" "r" "b" "sdp1"
    rfl (by decide) (by decide)
  exact ⟨h.2.2.2.1, h.1⟩

-- Counterexample to claim C4 as stated: targeted relays do not exclude the
-- sending socket.  Connected socket "a" has joined room "r"; it emits an
-- offer with targetId "a" (its own id) and the server delivers the relayed
-- offer back to "a" itself — the router delivered an envelope to its
-- sender.
theorem router_self_delivery_counterexample :
    (serverStep ⟨["a"], [("r", "a")], [("a", "r")]⟩ "a"
        (CMsg.offerEv "a" "sdp1")).2
      = [("a", SMsg.offerMsg "a" "sdp1")] := by decide

/-- Claim C7: when a socket `x` that joined room `r` disconnects, every
other current member `m` of `r` is sent `peer-disconnected(x)`; and a
live-channel client whose remembered peer is named by such a notification
closes its connection object, shows "Peer Left" and clears the peer,
emitting nothing. -/
theorem peer_disconnect_notification (s : ServerState) (x r m : String)
    (c : LiveClientState) (sid : String)
    (hreg : (x, r) ∈ s.regs) (hm : m ∈ roomMembers s r) (hmx : m ≠ x)
    (hc : c.otherPeerId = some sid) :
    (m, SMsg.peerDisconnected x) ∈ (serverStep s x CMsg.disconnectEv).2
  ∧ (liveClientStep c (SMsg.peerDisconnected sid)).1 = ⟨none, false, "Peer Left"⟩
  ∧ (liveClientStep c (SMsg.peerDisconnected sid)).2 = [] := by
  refine ⟨?_, ?_, ?_⟩
  · simp only [serverStep, List.mem_flatMap]
    refine ⟨(x, r), ?_, ?_⟩
    · rw [List.mem_filter]
      exact ⟨hreg, by simp⟩
    · rw [List.mem_map]
      exact ⟨m, mem_socketToRecipients_of hm hmx, rfl⟩
  · simp [liveClientStep, hc]
  · simp [liveClientStep, hc]

-- Witness for `peer_disconnect_notification`: "a" and "b" share room "r";
-- "a" disconnects, "b" is notified, and a client remembering "a" closes.
theorem peer_disconnect_notification_witness :
    ("b", SMsg.peerDisconnected "a")
      ∈ (serverStep ⟨["a", "b"], [("r", "a"), ("r", "b")], [("a", "r"), ("b", "r")]⟩
          "a" CMsg.disconnectEv).2
  ∧ (liveClientStep ⟨some "a", true, "Connected"⟩ (SMsg.peerDisconnected "a")).1
      = ⟨none, false, "Peer Left"⟩ := by
  have h := peer_disconnect_notification
    ⟨["a", "b"], [("r", "a"), ("r", "b")], [("a", "r"), ("b", "r")]⟩
    "a" "r" "b" ⟨some "a", true, "Connected"⟩ "a"
    (by decide) (by decide) (by decide) rfl
  exact ⟨h.1, h.2.1⟩

/-- Claim C8: a signaling message from a joined socket `x` with explicit
target `t` (a connected socket) is relayed to `t` with `x` substituted for
the target field and the payload unchanged: offers arrive as
`offer {callerId := x, offer}`, answers as `answer {responderId := x,
answer}`, ICE candidates as `ice-candidate {fromId := x, candidate}`; and
every delivery of the relay carries exactly that message. -/
theorem targeted_relay_substitution (s : ServerState) (x t q : String)
    (o a cand : Payload)
    (hx : (x, q) ∈ s.regs) (ht : t ∈ s.connected) :
    ((t, SMsg.offerMsg x o) ∈ (serverStep s x (CMsg.offerEv t o)).2
      ∧ ∀ d ∈ (serverStep s x (CMsg.offerEv t o)).2, d.2 = SMsg.offerMsg x o)
  ∧ ((t, SMsg.answerMsg x a) ∈ (serverStep s x (CMsg.answerEv t a)).2
      ∧ ∀ d ∈ (serverStep s x (CMsg.answerEv t a)).2, d.2 = SMsg.answerMsg x a)
  ∧ ((t, SMsg.iceMsg x cand) ∈ (serverStep s x (CMsg.iceEv t cand)).2
      ∧ ∀ d ∈ (serverStep s x (CMsg.iceEv t cand)).2, d.2 = SMsg.iceMsg x cand) := by
  have hxreg : (x, q) ∈ s.regs.filter fun p => p.1 == x := by
    rw [List.mem_filter]
    exact ⟨hx, by simp⟩
  have hself := mem_ioToRecipients_self (s := s) ht
  refine ⟨⟨?_, ?_⟩, ⟨?_, ?_⟩, ⟨?_, ?_⟩⟩ <;>
    simp only [serverStep, List.mem_flatMap]
  · exact ⟨(x, q), hxreg, List.mem_map.mpr ⟨t, hself, rfl⟩⟩
  · intro d hd
    obtain ⟨p, _, hd⟩ := hd
    obtain ⟨m, _, rfl⟩ := List.mem_map.mp hd
    rfl
  · exact ⟨(x, q), hxreg, List.mem_map.mpr ⟨t, hself, rfl⟩⟩
  · intro d hd
    obtain ⟨p, _, hd⟩ := hd
    obtain ⟨m, _, rfl⟩ := List.mem_map.mp hd
    rfl
  · exact ⟨(x, q), hxreg, List.mem_map.mpr ⟨t, hself, rfl⟩⟩
  · intro d hd
    obtain ⟨p, _, hd⟩ := hd
    obtain ⟨m, _, rfl⟩ := List.mem_map.mp hd
    rfl

-- Witness for `targeted_relay_substitution`: the offer from "s1" targeted
-- at connected "t1" arrives at "t1" as offer {callerId := "s1", ...}.
theorem targeted_relay_substitution_witness :
    ("t1", SMsg.offerMsg "s1" "sdp1")
      ∈ (serverStep ⟨["s1", "t1"], [("r", "s1")], [("s1", "r")]⟩ "s1"
          (CMsg.offerEv "t1" "sdp1")).2 :=
  (targeted_relay_substitution ⟨["s1", "t1"], [("r", "s1")], [("s1", "r")]⟩
    "s1" "t1" "r" "sdp1" "ans1" "cand1" (by decide) (by decide)).1.1

/-- Server reached by: sockets "a" and "b" connect, then "a" emits
`join-room("r")` twice. -/
def doubleJoinServer : ServerState :=
  let s0 : ServerState := ⟨["a", "b"], [], []⟩
  let s1 := (serverStep s0 "a" (CMsg.joinRoom "r")).1
  (serverStep s1 "a" (CMsg.joinRoom "r")).1

/-- Same but with a single `join-room("r")` from "a". -/
def singleJoinServer : ServerState :=
  let s0 : ServerState := ⟨["a", "b"], [], []⟩
  (serverStep s0 "a" (CMsg.joinRoom "r")).1

/-- Claim C6 evaluated at the failing input (re-join of the same room):
membership is idempotent — the rooms mapping after the duplicate join
equals the one after a single join — but message delivery afterwards is
not the same: `server.js` registers the `offer`/`answer`/`ice-candidate`/
`disconnect` listeners inside the `join-room` handler, so the duplicate
join registers them a second time and a subsequent offer from "a" targeted
at "b" is relayed to "b" twice instead of once. -/
theorem join_room_not_idempotent :
    doubleJoinServer.rooms = singleJoinServer.rooms
  ∧ (serverStep singleJoinServer "a" (CMsg.offerEv "b" "sdp1")).2
      = [("b", SMsg.offerMsg "a" "sdp1")]
  ∧ (serverStep doubleJoinServer "a" (CMsg.offerEv "b" "sdp1")).2
      = [("b", SMsg.offerMsg "a" "sdp1"), ("b", SMsg.offerMsg "a" "sdp1")] := by
  decide

end VideoCall
